import Mathlib

/-! Shallow embedding of the Otman hand-gesture 3D scene core:
gesture classification (src/services/handTrackingService.ts),
signal stabilization (src/components/HandController.tsx),
mode state machine and photo list (src/App.tsx),
pointer selection and per-object animation (src/components/Experience.tsx).

Machine reals are modelled by ℚ. The source compares Euclidean distances
(Math.hypot / Math.sqrt), always between two non-negative values; every such
comparison is carried out here on squared distances, which agrees with the
source because squaring is strictly monotone on non-negatives. -/

/-- Gesture labels (src/types.ts, enum HandGesture). -/
inductive HandGesture
  | NONE
  | FIST
  | OPEN_PALM
  | TWO_FINGERS
deriving DecidableEq

/-- Display modes (src/types.ts, enum AppState): TREE is the assembled
formation, SCATTER the free-float mode, ZOOM the focused inspection mode. -/
inductive AppState
  | TREE
  | SCATTER
  | ZOOM
deriving DecidableEq

/-- One 2D hand landmark (normalized image coordinates). -/
structure Landmark where
  x : ℚ
  y : ℚ
deriving DecidableEq, Inhabited

/-- landmarks[i]; inputs of interest have 21 points, so the default is
never reached for the indices the classifier touches. -/
def lmGet (l : List Landmark) (i : Nat) : Landmark := l.getD i default

/-- Squared Euclidean distance between two landmarks. The source computes
dist(p1, p2) = Math.hypot(p1.x - p2.x, p1.y - p2.y) and only ever compares
such distances, so the square carries the same information. -/
def dist2 (p q : Landmark) : ℚ := (p.x - q.x) ^ 2 + (p.y - q.y) ^ 2

/-- isFingerFolded(tipIdx, pipIdx): dTip < dPip * 1.1 in the source;
equivalently 100 * dTip² < 121 * dPip² on squared distances
(both sides of the source comparison are non-negative). -/
def isFingerFolded (l : List Landmark) (tipIdx pipIdx : Nat) : Bool :=
  decide (100 * dist2 (lmGet l tipIdx) (lmGet l 0) < 121 * dist2 (lmGet l pipIdx) (lmGet l 0))

/-- foldedCount over the four non-thumb fingers:
index (8,6), middle (12,10), ring (16,14), pinky (20,18). -/
def foldedCount (l : List Landmark) : Nat :=
  (if isFingerFolded l 8 6 then 1 else 0)
  + (if isFingerFolded l 12 10 then 1 else 0)
  + (if isFingerFolded l 16 14 then 1 else 0)
  + (if isFingerFolded l 20 18 then 1 else 0)

/-- HandTrackingService.detectGesture. The Option models the JavaScript guard
"!landmarks || landmarks.length === 0" (absent or empty input). -/
def detectGesture : Option (List Landmark) → HandGesture
  | none => HandGesture.NONE
  | some l =>
    if l.length = 0 then HandGesture.NONE
    else if !isFingerFolded l 8 6 && !isFingerFolded l 12 10
            && isFingerFolded l 16 14 && isFingerFolded l 20 18 then
      HandGesture.TWO_FINGERS
    else if 3 ≤ foldedCount l then HandGesture.FIST
    else if foldedCount l ≤ 1 then HandGesture.OPEN_PALM
    else HandGesture.OPEN_PALM

/-- Raw per-frame data assembled at the top of the HandController onResults
callback: classified gesture, mirrored palm position, presence flag. -/
structure RawFrame where
  gesture : HandGesture
  rawX : ℚ
  rawY : ℚ
  isPresent : Bool
deriving DecidableEq

/-- The mutable refs of HandController: prevPositionRef, gestureHistoryRef,
lastEmittedGestureRef. -/
structure StabState where
  pos : ℚ × ℚ
  history : List HandGesture
  lastEmitted : HandGesture
deriving DecidableEq

/-- Stabilized hand state (src/types.ts, HandTrackingResult). -/
structure HandTrackingResult where
  gesture : HandGesture
  position : ℚ × ℚ
  isPresent : Bool
deriving DecidableEq

/-- Initial ref values of HandController: position (0.5, 0.5), empty history,
last emitted gesture NONE. -/
def initialStabState : StabState :=
  ⟨(1/2, 1/2), [], HandGesture.NONE⟩

/-- First-occurrence order of the keys of the counts record built by the
dominant-gesture reduce in HandController; JavaScript Object.keys iterates
string keys in insertion order, which is the order in which each label first
occurs in the history buffer. -/
def keyOrder (h : List HandGesture) : List HandGesture :=
  h.foldl (fun acc g => if g ∈ acc then acc else acc ++ [g]) []

/-- The dominant gesture of the history buffer:
Object.keys(counts).reduce((a, b) => counts[a] > counts[b] ? a : b).
The reduce keeps a only when its count is strictly greater. On an empty
history (never reached: the reduce runs right after a push) we return NONE. -/
def dominant (h : List HandGesture) : HandGesture :=
  match keyOrder h with
  | [] => HandGesture.NONE
  | k :: ks => ks.foldl (fun a b => if h.count a > h.count b then a else b) k

/-- Modelled from the claim wording of C8 only (not from the source): the
tie-break that favours the FIRST label in iteration order attaining the
maximal count. Used to exhibit the divergence from the source reduce. -/
def dominantFirst (h : List HandGesture) : HandGesture :=
  ((keyOrder h).find? fun g =>
    decide (∀ g' ∈ keyOrder h, h.count g' ≤ h.count g)).getD HandGesture.NONE

/-- One tick of the HandController onResults callback: position smoothing with
smoothingFactor 0.1 while present, then gesture debouncing over a history
buffer of the last 5 raw labels while present; on an absent frame the history
is cleared and the emitted gesture forced to NONE, the position untouched. -/
def stabStep (s : StabState) (f : RawFrame) : StabState :=
  let pos :=
    if f.isPresent then
      (s.pos.1 + (f.rawX - s.pos.1) * (1/10), s.pos.2 + (f.rawY - s.pos.2) * (1/10))
    else s.pos
  if f.isPresent then
    let h1 := s.history ++ [f.gesture]
    let h2 := if 5 < h1.length then h1.tail else h1
    ⟨pos, h2, if 3 ≤ h2.count (dominant h2) then dominant h2 else s.lastEmitted⟩
  else
    ⟨pos, [], HandGesture.NONE⟩

/-- The HandTrackingResult passed to onUpdate at the end of the callback. -/
def stabOutput (s : StabState) (f : RawFrame) : HandTrackingResult :=
  ⟨(stabStep s f).lastEmitted, (stabStep s f).pos, f.isPresent⟩

/-- App-level React state (src/App.tsx): appState, photos, activePhotoIndex,
currentGesture, isHandPresent. -/
structure AppModel where
  appState : AppState
  photos : List String
  activePhotoIndex : Nat
  currentGesture : HandGesture
  isHandPresent : Bool
deriving DecidableEq

/-- Initial useState values of App: TREE, no photos, index 0, NONE, absent. -/
def initialAppModel : AppModel :=
  ⟨AppState.TREE, [], 0, HandGesture.NONE, false⟩

/-- The onHandUpdateProxy callback of App: updates isHandPresent, and runs the
gesture state machine only when the emitted gesture changed (an edge) and a
hand is present; TWO_FINGERS additionally requires SCATTER and photos. -/
def onHandUpdateProxy (m : AppModel) (r : HandTrackingResult) : AppModel :=
  let m1 : AppModel := { m with isHandPresent := r.isPresent }
  if m.currentGesture = r.gesture then m1
  else
    let nextState : AppState :=
      if r.isPresent then
        match r.gesture with
        | HandGesture.FIST =>
            if m.appState ≠ AppState.TREE then AppState.TREE else m.appState
        | HandGesture.OPEN_PALM =>
            if m.appState ≠ AppState.SCATTER then AppState.SCATTER else m.appState
        | HandGesture.TWO_FINGERS =>
            if m.appState = AppState.SCATTER ∧ 0 < m.photos.length then AppState.ZOOM
            else m.appState
        | HandGesture.NONE => m.appState
      else m.appState
    { m1 with appState := nextState, currentGesture := r.gesture }

/-- The clearPhotos callback of App: setPhotos([]); setActivePhotoIndex(0). -/
def clearPhotos (m : AppModel) : AppModel :=
  { m with photos := [], activePhotoIndex := 0 }

/-- The per-photo data the selection pass reads (ParticleData anchors). -/
structure PhotoParticle where
  treePos : ℚ × ℚ × ℚ
  scatterPos : ℚ × ℚ × ℚ
deriving DecidableEq, Inhabited

/-- ndcX = handData.position.x * 2 - 1 (Experience selection useFrame). -/
def ndcXOf (hand : HandTrackingResult) : ℚ := hand.position.1 * 2 - 1

/-- ndcY = -(handData.position.y * 2) + 1 (Experience selection useFrame). -/
def ndcYOf (hand : HandTrackingResult) : ℚ := -(hand.position.2 * 2) + 1

/-- The anchor the selection pass projects: treePos in TREE, scatterPos
otherwise (the pass never runs in ZOOM). -/
def modeAnchor (mode : AppState) (p : PhotoParticle) : ℚ × ℚ × ℚ :=
  if mode = AppState.TREE then p.treePos else p.scatterPos

/-- Squared distance, in projected device space, between a photo's
mode-relevant anchor and the pointer. The source computes
Math.sqrt(dx*dx + dy*dy) and only compares such values (against minDist and
against the 0.4 threshold), so the squares carry the same information. -/
def selD (mode : AppState) (ndcX ndcY : ℚ) (proj : ℚ × ℚ × ℚ → ℚ × ℚ)
    (p : PhotoParticle) : ℚ :=
  let pr := proj (modeAnchor mode p)
  (pr.1 - ndcX) * (pr.1 - ndcX) + (pr.2 - ndcY) * (pr.2 - ndcY)

/-- One iteration of the forEach minimum scan: keep the running (minDist,
closestIndex), replace it when the new distance is strictly smaller; the
initial minDist = Infinity / closestIndex = -1 state is modelled by none. -/
def selStep (D : PhotoParticle → ℚ) (acc : Option (ℚ × Nat)) (ip : Nat × PhotoParticle) :
    Option (ℚ × Nat) :=
  match acc with
  | none => some (D ip.2, ip.1)
  | some (m, j) => if D ip.2 < m then some (D ip.2, ip.1) else some (m, j)

/-- The selection useFrame of Experience (lines 353-382): suspended in ZOOM,
skipped when no hand is present or there are no photo particles; otherwise
scans all photo particles for the one whose projected mode-relevant anchor is
nearest to the pointer in device coordinates and reports its index when the
(squared) minimum distance is below (0.4)² = 16/100. The camera projection is
external state and is passed in as proj. -/
def selectionFrame (mode : AppState) (hand : HandTrackingResult)
    (P : List PhotoParticle) (proj : ℚ × ℚ × ℚ → ℚ × ℚ) : Option Nat :=
  if mode = AppState.ZOOM then none
  else if hand.isPresent = false ∨ P.length = 0 then none
  else
    match P.enum.foldl (selStep (selD mode (ndcXOf hand) (ndcYOf hand) proj)) none with
    | some (m, i) => if m < 16/100 then some i else none
    | none => none

/-- Recursive form of the forEach minimum scan, used to reason about the fold:
same step function, with the running index made explicit. -/
def selGo (D : PhotoParticle → ℚ) : List PhotoParticle → Nat → Option (ℚ × Nat) →
    Option (ℚ × Nat)
  | [], _, acc => acc
  | p :: t, k, acc => selGo D t (k + 1) (selStep D acc (k, p))

/-- Squared distance, per the spec wording, between the projected
mode-relevant anchor of photo j and the pointer mapped to device coordinates
ndcX = 2*px - 1, ndcY = 1 - 2*py. -/
def photoDist2 (mode : AppState) (hand : HandTrackingResult)
    (proj : ℚ × ℚ × ℚ → ℚ × ℚ) (P : List PhotoParticle) (j : Nat) : ℚ :=
  ((proj (modeAnchor mode (P.getD j default))).1 - (2 * hand.position.1 - 1)) ^ 2
  + ((proj (modeAnchor mode (P.getD j default))).2 - (1 - 2 * hand.position.2)) ^ 2

/-- THREE.MathUtils.lerp(x, y, t) = (1 - t) * x + t * y. -/
def mathLerp (x y t : ℚ) : ℚ := (1 - t) * x + t * y

/-- InstancedOrnaments interpolation factor: lerpSpeed = isTree ? 3 * delta :
2 * delta. -/
def ornamentLerpSpeed (appState : AppState) (delta : ℚ) : ℚ :=
  if appState = AppState.TREE then 3 * delta else 2 * delta

/-- One axis of the per-frame ornament position update:
lerp(current, target, lerpSpeed). The target (tree anchor, or scatter anchor
plus a trigonometric oscillation) is computed upstream and passed in. -/
def ornamentPosStep (appState : AppState) (current target delta : ℚ) : ℚ :=
  mathLerp current target (ornamentLerpSpeed appState delta)

/-- Ornament scale target: d.scale * (appState === ZOOM ? 0.5 : 1.0). -/
def ornamentScaleTarget (appState : AppState) (baseScale : ℚ) : ℚ :=
  baseScale * (if appState = AppState.ZOOM then 1/2 else 1)

/-- Per-frame ornament scale update: lerp(currentScale, targetScale, delta * 3). -/
def ornamentScaleStep (appState : AppState) (current baseScale delta : ℚ) : ℚ :=
  mathLerp current (ornamentScaleTarget appState baseScale) (delta * 3)

/-- Ornament rotation is set directly every frame
(dummy.rotation.x = d.rotationSpeed[0] * time), not interpolated. -/
def ornamentRotation (rotSpeed time : ℚ) : ℚ := rotSpeed * time

/-- One axis of the per-frame photo position update (PhotoDisplay useFrame):
meshRef.current.position.lerp(targetPos, delta * 3); THREE.Vector3.lerp is
this.x += (v.x - this.x) * alpha. The same line runs in every mode, so the
factor does not depend on appState. -/
def photoPosStep (_appState : AppState) (current target delta : ℚ) : ℚ :=
  current + (target - current) * (delta * 3)

/-- Per-frame photo scale update: lerp(currentScale, targetScale, delta * 4). -/
def photoScaleStep (current target delta : ℚ) : ℚ := mathLerp current target (delta * 4)

/-- Per-axis photo rotation update on the non-lookAt branch:
lerp(rotation, targetRot, delta * 3). -/
def photoRotStep (current target delta : ℚ) : ℚ := mathLerp current target (delta * 3)

/-- C10: clearPhotos empties the photo list, resets the selection index to 0,
and leaves every other piece of the interaction state — in particular the
current display mode, even when it is ZOOM (FOCUSED) — unchanged. -/
theorem C10_clear_photos (m : AppModel) :
    (clearPhotos m).photos = []
    ∧ (clearPhotos m).activePhotoIndex = 0
    ∧ (clearPhotos m).appState = m.appState
    ∧ (clearPhotos m).currentGesture = m.currentGesture
    ∧ (clearPhotos m).isHandPresent = m.isHandPresent :=
  ⟨rfl, rfl, rfl, rfl, rfl⟩

/-- C5: on an absent frame the stabilizer clears the gesture history, forces
the emitted gesture to NONE, and leaves the smoothed position exactly as it
was; and every emitted stabilized state satisfies the invariant that
isPresent = false implies gesture = NONE. -/
theorem C5_presence_loss (s : StabState) (f : RawFrame) (hab : f.isPresent = false) :
    (stabStep s f).history = []
    ∧ (stabStep s f).lastEmitted = HandGesture.NONE
    ∧ (stabStep s f).pos = s.pos
    ∧ ∀ (s' : StabState) (f' : RawFrame),
        (stabOutput s' f').isPresent = false → (stabOutput s' f').gesture = HandGesture.NONE := by
  refine ⟨by simp [stabStep, hab], by simp [stabStep, hab], by simp [stabStep, hab], ?_⟩
  intro s' f' h
  have h' : f'.isPresent = false := h
  simp [stabOutput, stabStep, h']

theorem C5_presence_loss_witness :
    (stabStep ⟨(1/3, 2/3), [HandGesture.FIST, HandGesture.FIST], HandGesture.FIST⟩
        ⟨HandGesture.NONE, 0, 0, false⟩).history = []
    ∧ (stabStep ⟨(1/3, 2/3), [HandGesture.FIST, HandGesture.FIST], HandGesture.FIST⟩
        ⟨HandGesture.NONE, 0, 0, false⟩).lastEmitted = HandGesture.NONE :=
  ⟨(C5_presence_loss _ _ rfl).1, (C5_presence_loss _ _ rfl).2.1⟩

/-- C2: the mode machine starts in TREE (ASSEMBLED) and reacts only to edges
of the emitted gesture: on a FIST edge any state moves to TREE, on an
OPEN_PALM edge any state moves to SCATTER, on a TWO_FINGERS edge the state
becomes ZOOM exactly when it was SCATTER and at least one photo exists, and
every other (state, edge) pair — including every non-edge frame — leaves the
state unchanged. The hypothesis is the stabilizer-output invariant (C5): a
non-NONE emitted gesture only occurs on present frames. -/
theorem C2_mode_machine (m : AppModel) (r : HandTrackingResult)
    (hinv : r.gesture = HandGesture.NONE ∨ r.isPresent = true) :
    initialAppModel.appState = AppState.TREE
    ∧ (m.currentGesture = r.gesture → (onHandUpdateProxy m r).appState = m.appState)
    ∧ (m.currentGesture ≠ r.gesture →
        (r.gesture = HandGesture.FIST →
            (onHandUpdateProxy m r).appState = AppState.TREE)
        ∧ (r.gesture = HandGesture.OPEN_PALM →
            (onHandUpdateProxy m r).appState = AppState.SCATTER)
        ∧ (r.gesture = HandGesture.TWO_FINGERS →
            (onHandUpdateProxy m r).appState =
              if m.appState = AppState.SCATTER ∧ 0 < m.photos.length then AppState.ZOOM
              else m.appState)
        ∧ (r.gesture = HandGesture.NONE →
            (onHandUpdateProxy m r).appState = m.appState)) := by
  refine ⟨rfl, fun hsame => by simp [onHandUpdateProxy, hsame], fun hedge => ⟨?_, ?_, ?_, ?_⟩⟩
  · intro hF
    rw [hF] at hedge
    rcases hinv with hno | hp
    · rw [hF] at hno; exact HandGesture.noConfusion hno
    · by_cases hA : m.appState = AppState.TREE <;>
        simp [onHandUpdateProxy, hedge, hF, hp, hA]
  · intro hO
    rw [hO] at hedge
    rcases hinv with hno | hp
    · rw [hO] at hno; exact HandGesture.noConfusion hno
    · by_cases hA : m.appState = AppState.SCATTER <;>
        simp [onHandUpdateProxy, hedge, hO, hp, hA]
  · intro hT
    rw [hT] at hedge
    rcases hinv with hno | hp
    · rw [hT] at hno; exact HandGesture.noConfusion hno
    · simp [onHandUpdateProxy, hedge, hT, hp]
  · intro hN
    rw [hN] at hedge
    cases hp : r.isPresent <;> simp [onHandUpdateProxy, hedge, hN, hp]

theorem C2_mode_machine_witness :
    (initialAppModel.currentGesture = HandGesture.OPEN_PALM
        ∨ (⟨HandGesture.OPEN_PALM, (1/2, 1/2), true⟩ : HandTrackingResult).isPresent = true)
    ∧ initialAppModel.currentGesture ≠ HandGesture.OPEN_PALM
    ∧ (onHandUpdateProxy initialAppModel
        ⟨HandGesture.OPEN_PALM, (1/2, 1/2), true⟩).appState = AppState.SCATTER :=
  ⟨Or.inr rfl, by decide,
    ((C2_mode_machine initialAppModel ⟨HandGesture.OPEN_PALM, (1/2, 1/2), true⟩
      (Or.inr rfl)).2.2 (by decide)).2.1 rfl⟩

/-- C1 counterexample: the claim says selection runs only while SCATTERED, but
in TREE (ASSEMBLED) the selection pass still runs and fires. With a present
hand at (0.5, 0.5) (device coordinates (0,0)), one photo whose tree anchor
projects to the origin, the selector reports index 0 although the mode is
ASSEMBLED, not SCATTERED. -/
theorem C1_counterexample :
    selectionFrame AppState.TREE ⟨HandGesture.OPEN_PALM, (1/2, 1/2), true⟩
      [⟨(0, 0, 0), (7, 7, 7)⟩] (fun a => (a.1, a.2.1)) = some 0 := by
  have h1 : AppState.TREE ≠ AppState.ZOOM := by decide
  norm_num [selectionFrame, List.enum, List.enumFrom, selStep, selD,
    ndcXOf, ndcYOf, modeAnchor, h1]

/-- C1 (amended): the selection pass is suspended exactly in FOCUSED (ZOOM):
while ZOOM, no selection is computed or reported on any frame, for every
pointer position, photo set and camera projection; in the other two modes
(ASSEMBLED as well as SCATTERED) the pass runs. -/
theorem C1_selection_gating (hand : HandTrackingResult) (P : List PhotoParticle)
    (proj : ℚ × ℚ × ℚ → ℚ × ℚ) :
    selectionFrame AppState.ZOOM hand P proj = none := by
  simp [selectionFrame]

/-- C7 counterexample: the claim says the position rate is faster in ASSEMBLED
than in the other modes, but the photo position update applies delta * 3 in
every mode (Experience.tsx line 212 runs after the per-mode target choice),
so from the same current value, target and elapsed time the step is identical
in TREE and in SCATTER — TREE is not faster. -/
theorem C7_counterexample :
    photoPosStep AppState.TREE 0 1 (1/60) = photoPosStep AppState.SCATTER 0 1 (1/60)
    ∧ ¬ photoPosStep AppState.SCATTER 0 1 (1/60) < photoPosStep AppState.TREE 0 1 (1/60) :=
  ⟨rfl, lt_irrefl _⟩

/-- C7 (amended): position and scale components approach their per-mode
targets by per-frame exponential interpolation current + (target - current) *
rate * Δt, never snapping: ornament positions at rate 3/s in ASSEMBLED versus
2/s in the other modes (ASSEMBLED faster), photo positions at rate 3/s in
every mode, and scale at its own independent rate (3/s for ornaments, 4/s for
photos); ornament rotation is instead set directly as rotationSpeed * time
(not interpolated); and for Δt ≥ 0 the per-frame change of any interpolated
position component never exceeds rate * Δt times the current distance to the
target (no teleport on a mode switch). -/
theorem C7_animator (st : AppState) (current target baseScale delta rotSpeed time : ℚ)
    (hd : 0 ≤ delta) :
    ornamentPosStep st current target delta
        = current + (target - current) * ornamentLerpSpeed st delta
    ∧ ornamentLerpSpeed AppState.TREE delta = 3 * delta
    ∧ (st ≠ AppState.TREE → ornamentLerpSpeed st delta = 2 * delta)
    ∧ photoPosStep st current target delta = current + (target - current) * (3 * delta)
    ∧ ornamentScaleStep st current baseScale delta
        = current + (ornamentScaleTarget st baseScale - current) * (3 * delta)
    ∧ photoScaleStep current target delta = current + (target - current) * (4 * delta)
    ∧ ornamentRotation rotSpeed time = rotSpeed * time
    ∧ |ornamentPosStep st current target delta - current|
        ≤ ornamentLerpSpeed st delta * |target - current|
    ∧ |photoPosStep st current target delta - current| ≤ 3 * delta * |target - current| := by
  have hspeed : 0 ≤ ornamentLerpSpeed st delta := by
    unfold ornamentLerpSpeed; split <;> positivity
  refine ⟨by unfold ornamentPosStep mathLerp; ring, by unfold ornamentLerpSpeed; simp,
    fun hst => by unfold ornamentLerpSpeed; simp [hst], by unfold photoPosStep; ring,
    by unfold ornamentScaleStep mathLerp; ring, by unfold photoScaleStep mathLerp; ring,
    rfl, ?_, ?_⟩
  · have : ornamentPosStep st current target delta - current
        = (target - current) * ornamentLerpSpeed st delta := by
      unfold ornamentPosStep mathLerp; ring
    rw [this, abs_mul, abs_of_nonneg hspeed, mul_comm]
  · have : photoPosStep st current target delta - current
        = (target - current) * (3 * delta) := by
      unfold photoPosStep; ring
    rw [this, abs_mul, abs_of_nonneg (by positivity : (0:ℚ) ≤ 3 * delta), mul_comm]

theorem C7_animator_witness :
    (0 : ℚ) ≤ 1/60
    ∧ photoPosStep AppState.SCATTER 0 1 (1/60) = 0 + (1 - 0) * (3 * (1/60)) :=
  ⟨by norm_num,
    (C7_animator AppState.SCATTER 0 1 1 (1/60) 0 0 (by norm_num)).2.2.2.1⟩

/-- C3: for 21-point landmark sets the classifier returns TWO_FINGERS when
index and middle are not folded while ring and pinky are folded, otherwise
FIST when at least 3 of the four non-thumb fingers are folded, and otherwise
OPEN_PALM (one branch covering both the ≤1-folded case and the
exactly-2-folded fallback); it returns NONE exactly on absent or empty input;
and thumb landmarks (indices 1-4) never influence the result: two landmark
sets agreeing on the wrist and on all indices ≥ 5 classify identically. -/
theorem C3_gesture_classifier (l l' : List Landmark)
    (hlen : l.length = 21) (hlen' : l'.length = 21)
    (hagree : ∀ i, i < 21 → (i = 0 ∨ 5 ≤ i) → lmGet l i = lmGet l' i) :
    detectGesture (some l)
      = (if !isFingerFolded l 8 6 && !isFingerFolded l 12 10
            && isFingerFolded l 16 14 && isFingerFolded l 20 18 then
           HandGesture.TWO_FINGERS
         else if 3 ≤ foldedCount l then HandGesture.FIST
         else HandGesture.OPEN_PALM)
    ∧ (∀ o : Option (List Landmark),
        detectGesture o = HandGesture.NONE ↔ (o = none ∨ o = some []))
    ∧ detectGesture (some l) = detectGesture (some l') := by
  have e0 := hagree 0 (by norm_num) (Or.inl rfl)
  have e6 := hagree 6 (by norm_num) (Or.inr (by norm_num))
  have e8 := hagree 8 (by norm_num) (Or.inr (by norm_num))
  have e10 := hagree 10 (by norm_num) (Or.inr (by norm_num))
  have e12 := hagree 12 (by norm_num) (Or.inr (by norm_num))
  have e14 := hagree 14 (by norm_num) (Or.inr (by norm_num))
  have e16 := hagree 16 (by norm_num) (Or.inr (by norm_num))
  have e18 := hagree 18 (by norm_num) (Or.inr (by norm_num))
  have e20 := hagree 20 (by norm_num) (Or.inr (by norm_num))
  have f1 : isFingerFolded l 8 6 = isFingerFolded l' 8 6 := by
    unfold isFingerFolded; rw [e8, e6, e0]
  have f2 : isFingerFolded l 12 10 = isFingerFolded l' 12 10 := by
    unfold isFingerFolded; rw [e12, e10, e0]
  have f3 : isFingerFolded l 16 14 = isFingerFolded l' 16 14 := by
    unfold isFingerFolded; rw [e16, e14, e0]
  have f4 : isFingerFolded l 20 18 = isFingerFolded l' 20 18 := by
    unfold isFingerFolded; rw [e20, e18, e0]
  have fc : foldedCount l = foldedCount l' := by
    unfold foldedCount; rw [f1, f2, f3, f4]
  refine ⟨?_, ?_, ?_⟩
  · simp only [detectGesture, hlen]
    norm_num
  · intro o
    match o with
    | none => simp [detectGesture]
    | some [] => simp [detectGesture]
    | some (a :: t) =>
      simp only [detectGesture]
      constructor
      · intro h
        exfalso
        revert h
        simp only [List.length_cons]
        norm_num
        split_ifs <;> simp
      · intro h
        rcases h with h | h <;> simp at h
  · simp only [detectGesture, hlen, hlen', f1, f2, f3, f4, fc]

theorem C3_gesture_classifier_witness :
    ((List.replicate 21 (⟨0, 0⟩ : Landmark)).set 6 ⟨1, 0⟩ |>.set 10 ⟨1, 0⟩
        |>.set 14 ⟨1, 0⟩ |>.set 18 ⟨1, 0⟩).length = 21
    ∧ detectGesture (some ((List.replicate 21 (⟨0, 0⟩ : Landmark)).set 6 ⟨1, 0⟩
        |>.set 10 ⟨1, 0⟩ |>.set 14 ⟨1, 0⟩ |>.set 18 ⟨1, 0⟩))
      = detectGesture (some ((List.replicate 21 (⟨0, 0⟩ : Landmark)).set 6 ⟨1, 0⟩
        |>.set 10 ⟨1, 0⟩ |>.set 14 ⟨1, 0⟩ |>.set 18 ⟨1, 0⟩ |>.set 2 ⟨5, 5⟩)) :=
  ⟨by decide,
    (C3_gesture_classifier _ _ (by decide) (by decide) (by decide)).2.2⟩

lemma mem_keyOrder_foldl (h : List HandGesture) :
    ∀ (acc : List HandGesture) (g : HandGesture),
      (g ∈ h.foldl (fun acc g => if g ∈ acc then acc else acc ++ [g]) acc) ↔
        (g ∈ acc ∨ g ∈ h) := by
  induction h with
  | nil => intro acc g; simp
  | cons a t ih =>
    intro acc g
    rw [List.foldl_cons, ih]
    by_cases ha : a ∈ acc
    · have hga : g = a → g ∈ acc := fun hg => hg ▸ ha
      simp only [if_pos ha, List.mem_cons]
      tauto
    · simp only [if_neg ha, List.mem_append, List.mem_singleton, List.mem_cons]
      tauto

lemma mem_keyOrder (h : List HandGesture) (g : HandGesture) :
    g ∈ keyOrder h ↔ g ∈ h := by
  unfold keyOrder
  rw [mem_keyOrder_foldl]
  simp

lemma keyOrder_ne_nil (h : List HandGesture) (hne : h ≠ []) : keyOrder h ≠ [] := by
  cases h with
  | nil => exact absurd rfl hne
  | cons a t =>
    intro hk
    have hmem : a ∈ keyOrder (a :: t) := (mem_keyOrder _ a).mpr (List.mem_cons_self a t)
    rw [hk] at hmem
    exact List.not_mem_nil a hmem

lemma foldl_count_le_init (c : HandGesture → Nat) (ks : List HandGesture) :
    ∀ init, c init ≤ c (ks.foldl (fun a b => if c a > c b then a else b) init) := by
  induction ks with
  | nil => intro init; simp
  | cons b t ih =>
    intro init
    rw [List.foldl_cons]
    refine le_trans ?_ (ih _)
    by_cases hcb : c init > c b
    · rw [if_pos hcb]
    · rw [if_neg hcb]; omega

lemma foldl_count_ge_mem (c : HandGesture → Nat) (ks : List HandGesture) :
    ∀ init g, g ∈ init :: ks →
      c g ≤ c (ks.foldl (fun a b => if c a > c b then a else b) init) := by
  induction ks with
  | nil =>
    intro init g hg
    rw [List.mem_singleton] at hg
    subst hg
    simp
  | cons b t ih =>
    intro init g hg
    rw [List.foldl_cons]
    rcases List.mem_cons.mp hg with hg1 | hg2
    · subst hg1
      refine le_trans ?_ (foldl_count_le_init c t _)
      by_cases hcb : c g > c b
      · rw [if_pos hcb]
      · rw [if_neg hcb]; omega
    · rcases List.mem_cons.mp hg2 with hgb | hgt
      · subst hgb
        refine le_trans ?_ (foldl_count_le_init c t _)
        by_cases hcb : c init > c g
        · rw [if_pos hcb]; omega
        · rw [if_neg hcb]
      · exact ih _ g (List.mem_cons_of_mem _ hgt)

lemma foldl_last_decomp (c : HandGesture → Nat) (ks : List HandGesture) :
    ∀ init, ∃ pre post,
      init :: ks = pre ++ (ks.foldl (fun a b => if c a > c b then a else b) init) :: post
      ∧ ∀ x ∈ post, c x < c (ks.foldl (fun a b => if c a > c b then a else b) init) := by
  induction ks with
  | nil => intro init; exact ⟨[], [], rfl, by simp⟩
  | cons b t ih =>
    intro init
    rw [List.foldl_cons]
    by_cases hcb : c init > c b
    · rw [if_pos hcb]
      obtain ⟨pre, post, hdec, hpost⟩ := ih init
      cases pre with
      | nil =>
        simp only [List.nil_append] at hdec
        injection hdec with h1 h2
        refine ⟨[], b :: post, ?_, ?_⟩
        · simp only [List.nil_append]
          rw [← h1, ← h2]
        · intro x hx
          rcases List.mem_cons.mp hx with hxb | hxp
          · subst hxb
            rw [← h1]
            exact hcb
          · exact hpost x hxp
      | cons y pre' =>
        rw [List.cons_append] at hdec
        injection hdec with h1 h2
        refine ⟨init :: b :: pre', post, ?_, hpost⟩
        rw [List.cons_append, List.cons_append, ← h2]
    · rw [if_neg hcb]
      obtain ⟨pre, post, hdec, hpost⟩ := ih b
      exact ⟨init :: pre, post, by rw [List.cons_append, ← hdec], hpost⟩

lemma count_le_dominant (h : List HandGesture) (g : HandGesture) :
    h.count g ≤ h.count (dominant h) := by
  by_cases hg : g ∈ h
  · have hk : g ∈ keyOrder h := (mem_keyOrder h g).mpr hg
    cases hko : keyOrder h with
    | nil => rw [hko] at hk; exact absurd hk (List.not_mem_nil g)
    | cons k ks =>
      rw [hko] at hk
      have hdom : dominant h = ks.foldl (fun a b => if h.count a > h.count b then a else b) k := by
        simp [dominant, hko]
      rw [hdom]
      exact foldl_count_ge_mem h.count ks k g hk
  · rw [List.count_eq_zero_of_not_mem hg]
    exact Nat.zero_le _

lemma stabStep_history_len (s : StabState) (f : RawFrame) (hlen : s.history.length ≤ 5) :
    (stabStep s f).history.length ≤ 5 := by
  cases hp : f.isPresent
  · simp [stabStep, hp]
  · simp only [stabStep, hp, if_true]
    by_cases h5 : 5 < (s.history ++ [f.gesture]).length
    · rw [if_pos h5]
      rw [List.length_tail, List.length_append, List.length_singleton]
      omega
    · rw [if_neg h5]
      omega

lemma stabStep_present_history (s : StabState) (f : RawFrame) (hp : f.isPresent = true)
    (hlen : s.history.length ≤ 5) :
    (stabStep s f).history = (s.history ++ [f.gesture]).drop (s.history.length + 1 - 5) := by
  simp only [stabStep, hp, if_true]
  by_cases h5 : s.history.length = 5
  · rw [if_pos (by rw [List.length_append, List.length_singleton]; omega)]
    have h1 : s.history.length + 1 - 5 = 1 := by omega
    rw [h1, List.drop_one]
  · rw [if_neg (by rw [List.length_append, List.length_singleton]; omega)]
    have h0 : s.history.length + 1 - 5 = 0 := by omega
    rw [h0, List.drop_zero]

lemma stabStep_present_emitted (s : StabState) (f : RawFrame) (hp : f.isPresent = true) :
    (stabStep s f).lastEmitted =
      if 3 ≤ (stabStep s f).history.count (dominant (stabStep s f).history)
      then dominant (stabStep s f).history else s.lastEmitted := by
  simp [stabStep, hp]

lemma stab_present_run (f : RawFrame) (hp : f.isPresent = true) :
    ∀ (n : Nat) (s : StabState), s.history.length ≤ 5 →
      ((List.replicate n f).foldl stabStep s).history
        = (s.history ++ List.replicate n f.gesture).drop (s.history.length + n - 5) := by
  intro n
  induction n with
  | zero =>
    intro s hlen
    have h0 : s.history.length + 0 - 5 = 0 := by omega
    rw [h0]
    simp
  | succ n ih =>
    intro s hlen
    rw [List.replicate_succ, List.foldl_cons,
      ih (stabStep s f) (stabStep_history_len s f hlen),
      stabStep_present_history s f hp hlen]
    by_cases h5 : s.history.length = 5
    · have hd1 : s.history.length + 1 - 5 = 1 := by omega
      rw [hd1]
      have hlen1 : ((s.history ++ [f.gesture]).drop 1).length = 5 := by
        rw [List.length_drop, List.length_append, List.length_singleton]
        omega
      rw [hlen1]
      have hda : (s.history ++ [f.gesture]).drop 1 = s.history.drop 1 ++ [f.gesture] :=
        List.drop_append_of_le_length (by omega)
      have hdb : (s.history ++ List.replicate (n + 1) f.gesture).drop 1
          = s.history.drop 1 ++ List.replicate (n + 1) f.gesture :=
        List.drop_append_of_le_length (by omega)
      have h51 : 5 + n - 5 = n := by omega
      have h52 : s.history.length + (n + 1) - 5 = 1 + n := by omega
      rw [hda, h51, h52, ← List.drop_drop, hdb, List.append_assoc,
        List.singleton_append, ← List.replicate_succ]
    · have hd0 : s.history.length + 1 - 5 = 0 := by omega
      rw [hd0, List.drop_zero]
      have hlen1 : (s.history ++ [f.gesture]).length = s.history.length + 1 := by
        rw [List.length_append, List.length_singleton]
      rw [hlen1]
      have harr : s.history.length + 1 + n - 5 = s.history.length + (n + 1) - 5 := by omega
      rw [harr, List.append_assoc, List.singleton_append, ← List.replicate_succ]

lemma dominant_replicate_five (g : HandGesture) : dominant (List.replicate 5 g) = g := by
  cases g <;> rfl

lemma count_replicate_five (g : HandGesture) : (List.replicate 5 g).count g = 5 := by
  cases g <;> rfl

/-- C4: on a present frame the stabilizer keeps a FIFO history of at most 5
raw labels (the oldest is evicted when a 6th is pushed); after pushing, the
dominant label has maximal count in the history, it becomes the emitted
gesture when its count is at least 3, and otherwise the previously emitted
gesture is retained; feeding 5 identical raw present frames emits that
gesture, and feeding an alternating 6-frame sequence that never reaches a
3-of-5 majority leaves the emitted gesture unchanged. -/
theorem C4_debounce (s : StabState) (f : RawFrame) (hp : f.isPresent = true)
    (hlen : s.history.length ≤ 5) :
    (stabStep s f).history
        = (if s.history.length = 5 then s.history.tail else s.history) ++ [f.gesture]
    ∧ (stabStep s f).history.length ≤ 5
    ∧ (∀ g : HandGesture,
        (stabStep s f).history.count g
          ≤ (stabStep s f).history.count (dominant (stabStep s f).history))
    ∧ (3 ≤ (stabStep s f).history.count (dominant (stabStep s f).history) →
        (stabStep s f).lastEmitted = dominant (stabStep s f).history)
    ∧ ((stabStep s f).history.count (dominant (stabStep s f).history) < 3 →
        (stabStep s f).lastEmitted = s.lastEmitted)
    ∧ ((List.replicate 5 f).foldl stabStep s).lastEmitted = f.gesture
    ∧ (∀ e : HandGesture,
        ((List.map (fun g => RawFrame.mk g 0 0 true)
            [HandGesture.FIST, HandGesture.OPEN_PALM, HandGesture.TWO_FINGERS,
             HandGesture.FIST, HandGesture.OPEN_PALM, HandGesture.TWO_FINGERS]).foldl
          stabStep ⟨(0, 0), [], e⟩).lastEmitted = e) := by
  refine ⟨?_, stabStep_history_len s f hlen, fun g => count_le_dominant _ g, ?_, ?_, ?_, ?_⟩
  · rw [stabStep_present_history s f hp hlen]
    by_cases h5 : s.history.length = 5
    · rw [if_pos h5]
      have h1 : s.history.length + 1 - 5 = 1 := by omega
      rw [h1, List.drop_one, ← List.drop_one,
        List.drop_append_of_le_length (by omega), List.drop_one]
    · rw [if_neg h5]
      have h0 : s.history.length + 1 - 5 = 0 := by omega
      rw [h0, List.drop_zero]
  · intro h3
    rw [stabStep_present_emitted s f hp, if_pos h3]
  · intro h3
    rw [stabStep_present_emitted s f hp, if_neg (by omega)]
  · have hhist : ((List.replicate 5 f).foldl stabStep s).history
        = List.replicate 5 f.gesture := by
      rw [stab_present_run f hp 5 s hlen]
      have h5 : s.history.length + 5 - 5 = s.history.length := by omega
      rw [h5, List.drop_left]
    have hsplit : (List.replicate 5 f).foldl stabStep s
        = stabStep ((List.replicate 4 f).foldl stabStep s) f := by
      rw [List.replicate_succ', List.foldl_append, List.foldl_cons, List.foldl_nil]
    rw [hsplit] at hhist ⊢
    rw [stabStep_present_emitted _ f hp, hhist, dominant_replicate_five,
      count_replicate_five, if_pos (by omega)]
  · intro e
    cases e <;> decide

theorem C4_debounce_witness :
    (initialStabState.history.length ≤ 5)
    ∧ ((List.replicate 5 (RawFrame.mk HandGesture.FIST 0 0 true)).foldl stabStep
        initialStabState).lastEmitted = HandGesture.FIST :=
  ⟨by decide,
    (C4_debounce initialStabState (RawFrame.mk HandGesture.FIST 0 0 true) rfl
      (by decide)).2.2.2.2.2.1⟩

/-- C8 counterexample: with history [FIST, OPEN_PALM] the two labels tie at
count 1; the source reduce keeps a only when strictly greater, so it returns
OPEN_PALM, the label encountered LAST in iteration order, while the claim's
first-encountered tie-break would return FIST. -/
theorem C8_counterexample :
    dominant [HandGesture.FIST, HandGesture.OPEN_PALM] = HandGesture.OPEN_PALM
    ∧ dominantFirst [HandGesture.FIST, HandGesture.OPEN_PALM] = HandGesture.FIST
    ∧ HandGesture.OPEN_PALM ≠ HandGesture.FIST := by
  refine ⟨by decide, by decide, by decide⟩

/-- C8 (amended): the dominant label always has maximal count, and ties among
most-frequent labels are broken deterministically in favour of the label
encountered LAST in iteration order over the history counts: every key after
the dominant one in iteration order has strictly smaller count, so any tied
key precedes it. -/
theorem C8_tiebreak (h : List HandGesture) (hne : h ≠ []) :
    (∀ g, h.count g ≤ h.count (dominant h))
    ∧ ∃ pre post, keyOrder h = pre ++ dominant h :: post
        ∧ ∀ g ∈ post, h.count g < h.count (dominant h) := by
  refine ⟨fun g => count_le_dominant h g, ?_⟩
  cases hko : keyOrder h with
  | nil => exact absurd hko (keyOrder_ne_nil h hne)
  | cons k ks =>
    have hdom : dominant h = ks.foldl (fun a b => if h.count a > h.count b then a else b) k := by
      simp [dominant, hko]
    obtain ⟨pre, post, hdec, hpost⟩ := foldl_last_decomp h.count ks k
    refine ⟨pre, post, ?_, ?_⟩
    · rw [hdom]
      exact hdec
    · rw [hdom]
      exact hpost

theorem C8_tiebreak_witness :
    ([HandGesture.FIST, HandGesture.OPEN_PALM] ≠ ([] : List HandGesture))
    ∧ ∃ pre post,
        keyOrder [HandGesture.FIST, HandGesture.OPEN_PALM]
          = pre ++ dominant [HandGesture.FIST, HandGesture.OPEN_PALM] :: post
        ∧ ∀ g ∈ post,
            List.count g [HandGesture.FIST, HandGesture.OPEN_PALM]
              < List.count (dominant [HandGesture.FIST, HandGesture.OPEN_PALM])
                  [HandGesture.FIST, HandGesture.OPEN_PALM] :=
  ⟨by decide, (C8_tiebreak [HandGesture.FIST, HandGesture.OPEN_PALM] (by decide)).2⟩

lemma stabStep_present_pos (s : StabState) (f : RawFrame) (hp : f.isPresent = true) :
    (stabStep s f).pos.1 = s.pos.1 + (f.rawX - s.pos.1) * (1/10)
    ∧ (stabStep s f).pos.2 = s.pos.2 + (f.rawY - s.pos.2) * (1/10) := by
  constructor <;> simp [stabStep, hp]

lemma stab_pos_run (f : RawFrame) (hp : f.isPresent = true) :
    ∀ (n : Nat) (s : StabState),
      ((List.replicate n f).foldl stabStep s).pos.1 - f.rawX
          = (9/10 : ℚ) ^ n * (s.pos.1 - f.rawX)
      ∧ ((List.replicate n f).foldl stabStep s).pos.2 - f.rawY
          = (9/10 : ℚ) ^ n * (s.pos.2 - f.rawY) := by
  intro n
  induction n with
  | zero => intro s; simp
  | succ n ih =>
    intro s
    rw [List.replicate_succ, List.foldl_cons]
    obtain ⟨ih1, ih2⟩ := ih (stabStep s f)
    obtain ⟨hx, hy⟩ := stabStep_present_pos s f hp
    constructor
    · rw [ih1, hx]; ring
    · rw [ih2, hy]; ring

/-- C9: while a hand is present each smoothed coordinate is updated exactly as
smoothed + 0.1 * (raw - smoothed); feeding the constant raw position
(f.rawX, f.rawY) for n consecutive present frames multiplies the signed error
by 9/10 each tick, so the absolute error after n ticks is (9/10)^n times the
initial error, and for every positive ε the smoothed position is within ε of
the raw position from some tick N on. -/
theorem C9_smoothing (s : StabState) (f : RawFrame) (hp : f.isPresent = true) (n : Nat) :
    (stabStep s f).pos.1 = s.pos.1 + (f.rawX - s.pos.1) * (1/10)
    ∧ (stabStep s f).pos.2 = s.pos.2 + (f.rawY - s.pos.2) * (1/10)
    ∧ ((List.replicate n f).foldl stabStep s).pos.1 - f.rawX
        = (9/10 : ℚ) ^ n * (s.pos.1 - f.rawX)
    ∧ |((List.replicate n f).foldl stabStep s).pos.1 - f.rawX|
        = (9/10 : ℚ) ^ n * |s.pos.1 - f.rawX|
    ∧ ∀ ε : ℚ, 0 < ε → ∃ N : Nat, ∀ m : Nat, N ≤ m →
        |((List.replicate m f).foldl stabStep s).pos.1 - f.rawX| ≤ ε
        ∧ |((List.replicate m f).foldl stabStep s).pos.2 - f.rawY| ≤ ε := by
  have habs : ∀ (m : Nat),
      |((List.replicate m f).foldl stabStep s).pos.1 - f.rawX|
          = (9/10 : ℚ) ^ m * |s.pos.1 - f.rawX|
      ∧ |((List.replicate m f).foldl stabStep s).pos.2 - f.rawY|
          = (9/10 : ℚ) ^ m * |s.pos.2 - f.rawY| := by
    intro m
    obtain ⟨h1, h2⟩ := stab_pos_run f hp m s
    rw [h1, h2, abs_mul, abs_mul, abs_of_nonneg (by positivity : (0:ℚ) ≤ (9/10 : ℚ) ^ m)]
    exact ⟨rfl, rfl⟩
  refine ⟨(stabStep_present_pos s f hp).1, (stabStep_present_pos s f hp).2,
    (stab_pos_run f hp n s).1, (habs n).1, ?_⟩
  intro ε hε
  set Cx := |s.pos.1 - f.rawX| with hCx
  set Cy := |s.pos.2 - f.rawY| with hCy
  set C := max Cx Cy with hC
  have hC0 : 0 ≤ C := le_trans (abs_nonneg _) (le_max_left Cx Cy)
  have hC1 : (0 : ℚ) < 1 + C := by linarith
  obtain ⟨N, hN⟩ := exists_pow_lt_of_lt_one (div_pos hε hC1) (by norm_num : (9/10 : ℚ) < 1)
  refine ⟨N, fun m hm => ?_⟩
  have hpow : ((9:ℚ)/10) ^ m ≤ (9/10 : ℚ) ^ N :=
    pow_le_pow_of_le_one (by norm_num) (by norm_num) hm
  have key : ∀ c : ℚ, |c| ≤ C → (9/10 : ℚ) ^ m * |c| ≤ ε := by
    intro c hc
    have h1 : (9/10 : ℚ) ^ m * |c| ≤ (9/10 : ℚ) ^ N * (1 + C) :=
      mul_le_mul hpow (by linarith) (abs_nonneg c) (by positivity)
    have h2 : (9/10 : ℚ) ^ N * (1 + C) < (ε / (1 + C)) * (1 + C) :=
      mul_lt_mul_of_pos_right hN hC1
    have h3 : (ε / (1 + C)) * (1 + C) = ε := div_mul_cancel₀ ε (ne_of_gt hC1)
    linarith
  obtain ⟨hax, hay⟩ := habs m
  rw [hax, hay]
  exact ⟨key _ (le_max_left Cx Cy), key _ (le_max_right Cx Cy)⟩

theorem C9_smoothing_witness :
    (stabStep ⟨(0, 0), [], HandGesture.NONE⟩ (RawFrame.mk HandGesture.FIST 1 1 true)).pos.1
      = 0 + (1 - 0) * (1/10) :=
  (C9_smoothing ⟨(0, 0), [], HandGesture.NONE⟩ (RawFrame.mk HandGesture.FIST 1 1 true)
    rfl 1).1

lemma enumFrom_foldl_selGo (D : PhotoParticle → ℚ) :
    ∀ (t : List PhotoParticle) (k : Nat) (acc : Option (ℚ × Nat)),
      (List.enumFrom k t).foldl (selStep D) acc = selGo D t k acc := by
  intro t
  induction t with
  | nil => intro k acc; rfl
  | cons p t ih =>
    intro k acc
    rw [List.enumFrom_cons, List.foldl_cons]
    simp only [selGo]
    exact ih (k + 1) (selStep D acc (k, p))

lemma selGo_spec (D : PhotoParticle → ℚ) :
    ∀ (t : List PhotoParticle) (k : Nat) (m₀ : ℚ) (j₀ : Nat),
      ∃ m' j', selGo D t k (some (m₀, j₀)) = some (m', j')
        ∧ m' ≤ m₀
        ∧ (∀ r, r < t.length → m' ≤ D (t.getD r default))
        ∧ ((m' = m₀ ∧ j' = j₀)
            ∨ ∃ r, r < t.length ∧ m' = D (t.getD r default) ∧ j' = k + r) := by
  intro t
  induction t with
  | nil =>
    intro k m₀ j₀
    refine ⟨m₀, j₀, rfl, le_refl _, ?_, Or.inl ⟨rfl, rfl⟩⟩
    intro r hr
    simp at hr
  | cons p t ih =>
    intro k m₀ j₀
    by_cases hdp : D p < m₀
    · have hstep : selStep D (some (m₀, j₀)) (k, p) = some (D p, k) := by
        simp [selStep, hdp]
      obtain ⟨m', j', heq, hle, hall, hdisj⟩ := ih (k + 1) (D p) k
      refine ⟨m', j', ?_, le_trans hle (le_of_lt hdp), ?_, ?_⟩
      · simp only [selGo, hstep]
        exact heq
      · intro r hr
        match r with
        | 0 => simpa using hle
        | Nat.succ r' =>
          rw [List.getD_cons_succ]
          exact hall r' (by simp at hr; omega)
      · rcases hdisj with ⟨hm, hj⟩ | ⟨r, hr, hm, hj⟩
        · refine Or.inr ⟨0, by simp, ?_, by omega⟩
          rw [List.getD_cons_zero]
          exact hm
        · refine Or.inr ⟨r + 1, by simp; omega, ?_, by omega⟩
          rw [List.getD_cons_succ]
          exact hm
    · have hstep : selStep D (some (m₀, j₀)) (k, p) = some (m₀, j₀) := by
        simp [selStep, hdp]
      obtain ⟨m', j', heq, hle, hall, hdisj⟩ := ih (k + 1) m₀ j₀
      refine ⟨m', j', ?_, hle, ?_, ?_⟩
      · simp only [selGo, hstep]
        exact heq
      · intro r hr
        match r with
        | 0 =>
          rw [List.getD_cons_zero]
          exact le_trans hle (not_lt.mp hdp)
        | Nat.succ r' =>
          rw [List.getD_cons_succ]
          exact hall r' (by simp at hr; omega)
      · rcases hdisj with ⟨hm, hj⟩ | ⟨r, hr, hm, hj⟩
        · exact Or.inl ⟨hm, hj⟩
        · refine Or.inr ⟨r + 1, by simp; omega, ?_, by omega⟩
          rw [List.getD_cons_succ]
          exact hm

/-- C6: whenever the selection pass runs (mode not ZOOM, hand present,
non-empty photo set), there is an index i of minimal squared projected
distance to the pointer's device coordinates (ndcX = 2*px - 1,
ndcY = 1 - 2*py), and the pass reports exactly some i when that minimal
squared distance is below (0.4)² = 16/100 and reports nothing otherwise. -/
theorem C6_pointer_selector (mode : AppState) (hand : HandTrackingResult)
    (P : List PhotoParticle) (proj : ℚ × ℚ × ℚ → ℚ × ℚ)
    (hmode : mode ≠ AppState.ZOOM) (hpres : hand.isPresent = true) (hne : P ≠ []) :
    ∃ i, i < P.length
      ∧ (∀ j, j < P.length → photoDist2 mode hand proj P i ≤ photoDist2 mode hand proj P j)
      ∧ selectionFrame mode hand P proj
          = (if photoDist2 mode hand proj P i < 16/100 then some i else none) := by
  set D := selD mode (ndcXOf hand) (ndcYOf hand) proj with hD
  have hDP : ∀ (Q : List PhotoParticle) (j : Nat),
      D (Q.getD j default) = photoDist2 mode hand proj Q j := by
    intro Q j
    simp only [hD, selD, ndcXOf, ndcYOf, photoDist2]
    ring
  cases P with
  | nil => exact absurd rfl hne
  | cons p t =>
    obtain ⟨m', j', heq, hle, hall, hdisj⟩ := selGo_spec D t 1 (D p) 0
    have hfold : (List.enum (p :: t)).foldl (selStep D) none = some (m', j') := by
      simp only [List.enum, List.enumFrom_cons, List.foldl_cons]
      have hstep0 : selStep D none (0, p) = some (D p, 0) := rfl
      rw [hstep0, enumFrom_foldl_selGo]
      exact heq
    have hsel : selectionFrame mode hand (p :: t) proj
        = (if m' < 16/100 then some j' else none) := by
      unfold selectionFrame
      rw [if_neg hmode, if_neg (by simp [hpres]), ← hD, hfold]
    have hj1 : j' < (p :: t).length := by
      rcases hdisj with ⟨hm, hj⟩ | ⟨r, hr, hm, hj⟩
      · subst hj; simp
      · subst hj; simp; omega
    have hj2 : m' = D ((p :: t).getD j' default) := by
      rcases hdisj with ⟨hm, hj⟩ | ⟨r, hr, hm, hj⟩
      · subst hj
        rw [List.getD_cons_zero]
        exact hm
      · subst hj
        rw [Nat.add_comm 1 r, List.getD_cons_succ]
        exact hm
    refine ⟨j', hj1, ?_, ?_⟩
    · intro j hj
      rw [← hDP (p :: t) j', ← hDP (p :: t) j, ← hj2]
      match j with
      | 0 =>
        rw [List.getD_cons_zero]
        exact hle
      | Nat.succ jj =>
        rw [List.getD_cons_succ]
        exact hall jj (by simp at hj; omega)
    · rw [hsel, ← hDP (p :: t) j', ← hj2]

theorem C6_pointer_selector_witness :
    (∃ i, i < ([⟨(9, 9, 9), (0, 0, 0)⟩, ⟨(9, 9, 9), (1/2, 1/2, 0)⟩,
          ⟨(9, 9, 9), (-1, -1, 0)⟩] : List PhotoParticle).length
      ∧ (∀ j, j < ([⟨(9, 9, 9), (0, 0, 0)⟩, ⟨(9, 9, 9), (1/2, 1/2, 0)⟩,
            ⟨(9, 9, 9), (-1, -1, 0)⟩] : List PhotoParticle).length →
          photoDist2 AppState.SCATTER ⟨HandGesture.OPEN_PALM, (21/40, 19/40), true⟩
              (fun a => (a.1, a.2.1))
              [⟨(9, 9, 9), (0, 0, 0)⟩, ⟨(9, 9, 9), (1/2, 1/2, 0)⟩, ⟨(9, 9, 9), (-1, -1, 0)⟩] i
            ≤ photoDist2 AppState.SCATTER ⟨HandGesture.OPEN_PALM, (21/40, 19/40), true⟩
              (fun a => (a.1, a.2.1))
              [⟨(9, 9, 9), (0, 0, 0)⟩, ⟨(9, 9, 9), (1/2, 1/2, 0)⟩, ⟨(9, 9, 9), (-1, -1, 0)⟩] j)
      ∧ selectionFrame AppState.SCATTER ⟨HandGesture.OPEN_PALM, (21/40, 19/40), true⟩
            [⟨(9, 9, 9), (0, 0, 0)⟩, ⟨(9, 9, 9), (1/2, 1/2, 0)⟩, ⟨(9, 9, 9), (-1, -1, 0)⟩]
            (fun a => (a.1, a.2.1))
          = (if photoDist2 AppState.SCATTER ⟨HandGesture.OPEN_PALM, (21/40, 19/40), true⟩
                (fun a => (a.1, a.2.1))
                [⟨(9, 9, 9), (0, 0, 0)⟩, ⟨(9, 9, 9), (1/2, 1/2, 0)⟩, ⟨(9, 9, 9), (-1, -1, 0)⟩] i
                < 16/100
             then some i else none))
    ∧ selectionFrame AppState.SCATTER ⟨HandGesture.OPEN_PALM, (21/40, 19/40), true⟩
          [⟨(9, 9, 9), (0, 0, 0)⟩, ⟨(9, 9, 9), (1/2, 1/2, 0)⟩, ⟨(9, 9, 9), (-1, -1, 0)⟩]
          (fun a => (a.1, a.2.1)) = some 0
    ∧ selectionFrame AppState.SCATTER ⟨HandGesture.OPEN_PALM, (3/2, -1/2), true⟩
          [⟨(9, 9, 9), (0, 0, 0)⟩, ⟨(9, 9, 9), (1/2, 1/2, 0)⟩, ⟨(9, 9, 9), (-1, -1, 0)⟩]
          (fun a => (a.1, a.2.1)) = none := by
  have h1 : AppState.SCATTER ≠ AppState.ZOOM := by decide
  have h2 : AppState.SCATTER ≠ AppState.TREE := by decide
  refine ⟨C6_pointer_selector AppState.SCATTER ⟨HandGesture.OPEN_PALM, (21/40, 19/40), true⟩
    [⟨(9, 9, 9), (0, 0, 0)⟩, ⟨(9, 9, 9), (1/2, 1/2, 0)⟩, ⟨(9, 9, 9), (-1, -1, 0)⟩]
    (fun a => (a.1, a.2.1)) h1 rfl (by decide), ?_, ?_⟩
  · norm_num [selectionFrame, List.enum, List.enumFrom, selStep, selD,
      ndcXOf, ndcYOf, modeAnchor, h1, h2]
  · norm_num [selectionFrame, List.enum, List.enumFrom, selStep, selD,
      ndcXOf, ndcYOf, modeAnchor, h1, h2]
